import Mathlib

/-!
# ffmpeg_remuxer: the pipe-pumping wrapper around an external transcoder

A shallow embedding of `src/ffmpeg_wrapper.cpp`.

* Operating-system calls are not executed: every call the code makes is
  appended to a chronological `trace`, and the value the call returns is an
  input of the embedded function (an outcome supplied by the environment).
* The file system is the list of paths that currently exist.
* C++ exceptions are `Except FFMpegWrapperException`; effects that happened
  before a `throw` are kept, so fallible functions return the pair
  `Except .. × World`.
* Each worker loop is embedded as the sequence of iterations it runs until the
  stop flag is observed; the number of iterations is an input.
-/

namespace FFMpegRemuxer

/-! ## Constants and machine integers -/

def VIDEO_BUFFER_SIZE : Nat := 1024
def AUDIO_BUFFER_SIZE : Nat := 512
def OUTPUT_BUFFER_SIZE : Nat := 1024

/-- Signal number of `SIGTERM`. -/
def SIGTERM : Nat := 15

/-- Conversion of a signed 64-bit `ssize_t` to the unsigned 64-bit `size_t`. -/
def toSizeT (x : Int) : Nat := (x % 2 ^ 64).toNat

/-- Conversion of a `size_t` to a 32-bit `int` (two's complement wrap). -/
def toInt32 (n : Nat) : Int :=
  if n % 2 ^ 32 < 2 ^ 31 then ((n % 2 ^ 32 : Nat) : Int) else ((n % 2 ^ 32 : Nat) : Int) - 2 ^ 32

/-! ## Exceptions, events and the world -/

structure FFMpegWrapperException where
  what_ : String
deriving DecidableEq, Repr

/-- The constructor `FFMpegWrapperException(what)`. -/
def FFMpegWrapperException.new (what : String) : FFMpegWrapperException :=
  { what_ := "FFMpegRemuxerException: " ++ what }

/-- The two feed directions; `WriteVideo` and `WriteAudio` are the same code on
the video and on the audio members. -/
inductive Chan where
  | video
  | audio
deriving DecidableEq, Repr

/-- One call that leaves the program, with the value it returned. -/
inductive Event where
  | mkfifo (path : String) (ret : Int)
  | fsExists (path : String) (ret : Bool)
  | fsRemove (path : String)
  | fork (ret : Int)
  | execvp (file : String) (argv : List String)
  | kill (pid : Int) (sig : Nat)
  | waitpid (pid : Int)
  | close (fd : Int)
  | openWrite (path : String) (ret : Int)
  | openRead (path : String) (ret : Int)
  | fcntlGetfl (fd : Int)
  | fcntlSetflBlocking (fd : Int)
  | sleepMs (ms : Nat)
  | write (fd : Int) (data : List Nat) (ret : Int)
  | poll (fd : Int) (timeout : Int) (ret : Int)
  | read (fd : Int) (count : Nat) (ret : Int)
  | source (c : Chan) (capacity : Nat) (data : List Nat)
  | sink (buffer_size : Int)
deriving DecidableEq, Repr

structure World where
  /-- The paths that exist on disk. -/
  fs : List String
  /-- Every call made so far, oldest first. -/
  trace : List Event
  /-- The text `strerror(errno)` yields. -/
  errtext : String

def World.emit (w : World) (e : Event) : World :=
  { w with trace := w.trace ++ [e] }

/-- The call `mkfifo(path, mode)` returning `ret`; the file exists afterwards
when the call succeeded. -/
def mkfifo (path : String) (ret : Int) (w : World) : World :=
  { w with fs := if ret = 0 then path :: w.fs else w.fs,
           trace := w.trace ++ [Event.mkfifo path ret] }

/-- The guarded removal `if (bf::exists(p, ec)) bf::remove(p, ec);`. -/
def removeIfExists (p : String) (w : World) : World :=
  if p ∈ w.fs then
    { w with fs := w.fs.filter (fun q => q ≠ p),
             trace := w.trace ++ [Event.fsExists p true, Event.fsRemove p] }
  else
    w.emit (Event.fsExists p false)

/-! ## FFMpegProcess -/

structure FFMpegProcess where
  video_pipe_path_ : String
  audio_pipe_path_ : String
  output_pipe_path_ : String
  video_pipe_ : Int
  audio_pipe_ : Int
  output_pipe_ : Int
  pid_ : Int
deriving DecidableEq, Repr

def FFMpegProcess.RemovePipes (s : FFMpegProcess) (w : World) : World :=
  removeIfExists s.output_pipe_path_
    (removeIfExists s.audio_pipe_path_
      (removeIfExists s.video_pipe_path_ w))

/-- The member initialisers of the constructor. `vpath`, `apath`, `opath` are
the values of the three `bf::temp_directory_path() / bf::unique_path()`
expressions. -/
def FFMpegProcess.initial (has_audio_input : Bool) (vpath apath opath : String) :
    FFMpegProcess :=
  { video_pipe_path_ := vpath
    audio_pipe_path_ := if has_audio_input then apath else ""
    output_pipe_path_ := opath
    video_pipe_ := -1
    audio_pipe_ := -1
    output_pipe_ := -1
    pid_ := 0 }

/-- The `try` block of the constructor; `rV`, `rA`, `rO` are what the three
`mkfifo` calls return when they are reached. -/
def FFMpegProcess.createPipes (s : FFMpegProcess) (rV rA rO : Int) (w : World) :
    Except FFMpegWrapperException Unit × World :=
  let w1 := mkfifo s.video_pipe_path_ rV w
  if rV ≠ 0 then
    (.error (.new ("Failed to create video pipe: " ++ w1.errtext)), w1)
  else
    let audio : Except FFMpegWrapperException Unit × World :=
      if s.audio_pipe_path_ ≠ "" then
        let w2 := mkfifo s.audio_pipe_path_ rA w1
        if rA ≠ 0 then
          (.error (.new ("Failed to create audio pipe: " ++ w2.errtext)), w2)
        else (.ok (), w2)
      else (.ok (), w1)
    match audio with
    | (.error e, w2) => (.error e, w2)
    | (.ok _, w2) =>
      let w3 := mkfifo s.output_pipe_path_ rO w2
      if rO ≠ 0 then
        (.error (.new ("Failed to create output pipe: " ++ w3.errtext)), w3)
      else (.ok (), w3)

/-- The constructor `FFMpegProcess(has_audio_input)`: the `try` block, and the
`catch` clause that removes the pipes and swallows the exception. -/
def FFMpegProcess.ctor (has_audio_input : Bool) (vpath apath opath : String)
    (rV rA rO : Int) (w : World) : Except FFMpegWrapperException FFMpegProcess × World :=
  let s := FFMpegProcess.initial has_audio_input vpath apath opath
  match s.createPipes rV rA rO w with
  | (.ok _, w1) => (.ok s, w1)
  | (.error _, w1) => (.ok s, s.RemovePipes w1)

/-- The block `if(pid_) { kill(pid_, SIGTERM); waitpid(pid_, nullptr, WNOHANG); }`. -/
def FFMpegProcess.terminateChild (s : FFMpegProcess) (w : World) : World :=
  if s.pid_ ≠ 0 then
    (w.emit (Event.kill s.pid_ SIGTERM)).emit (Event.waitpid s.pid_)
  else w

/-- The block `if(fd >= 0) { close(fd); }`. -/
def closeIfOpen (fd : Int) (w : World) : World :=
  if 0 ≤ fd then w.emit (Event.close fd) else w

/-- The destructor `~FFMpegProcess()`. -/
def FFMpegProcess.dtor (s : FFMpegProcess) (w : World) : World :=
  let w1 := s.terminateChild w
  let w2 := closeIfOpen s.video_pipe_ w1
  let w3 := closeIfOpen s.audio_pipe_ w2
  let w4 := closeIfOpen s.output_pipe_ w3
  s.RemovePipes w4

/-- The argument vector the child builds in `Start`. -/
def FFMpegProcess.childArgs (s : FFMpegProcess)
    (video_args audio_args output_args : List String) : List String :=
  let args : List String := ["ffmpeg", "-y"]
  let args := args ++ video_args
  let args := args ++ ["-i"]
  let args := args ++ [s.video_pipe_path_]
  let args :=
    if s.audio_pipe_path_ ≠ "" then
      let args := args ++ audio_args
      let args := args ++ ["-i"]
      args ++ [s.audio_pipe_path_]
    else args
  let args := args ++ output_args
  args ++ [s.output_pipe_path_]

/-- The function `Start`; `pid` is what `fork()` returns in the process that is
followed: `0` in the child, which then calls `execvp(argv[0], argv)`. -/
def FFMpegProcess.Start (s : FFMpegProcess)
    (video_args audio_args output_args : List String) (pid : Int) (w : World) :
    FFMpegProcess × World :=
  let w1 := w.emit (Event.fork pid)
  if pid = 0 then
    let args := s.childArgs video_args audio_args output_args
    (s, w1.emit (Event.execvp (args.headD "") args))
  else
    ({ s with pid_ := pid }, w1)

/-! ## The pipe I/O adapter -/

def FFMpegProcess.pipeFd (s : FFMpegProcess) : Chan → Int
  | .video => s.video_pipe_
  | .audio => s.audio_pipe_

def FFMpegProcess.pipePath (s : FFMpegProcess) : Chan → String
  | .video => s.video_pipe_path_
  | .audio => s.audio_pipe_path_

def FFMpegProcess.setPipeFd (s : FFMpegProcess) (c : Chan) (fd : Int) : FFMpegProcess :=
  match c with
  | .video => { s with video_pipe_ := fd }
  | .audio => { s with audio_pipe_ := fd }

def Chan.writeFailure : Chan → String
  | .video => "Failed to write to video pipe: "
  | .audio => "Failed to write to audio pipe: "

/-- The body shared by `WriteVideo` and `WriteAudio`. `openRet` is what `open`
returns if it is called, `writeRet` what `write` returns if it is called. The
function returns `false` when the pipe could not be opened yet. -/
def FFMpegProcess.WritePipe (c : Chan) (s : FFMpegProcess) (buffer : List Nat)
    (write_size : Nat) (openRet writeRet : Int) (w : World) :
    Except FFMpegWrapperException Bool × FFMpegProcess × World :=
  let opened : Option (FFMpegProcess × World) :=
    if s.pipeFd c < 0 then
      let s1 := s.setPipeFd c openRet
      let w1 := w.emit (Event.openWrite (s.pipePath c) openRet)
      if s1.pipeFd c < 0 then none
      else
        some (s1, (w1.emit (Event.fcntlGetfl (s1.pipeFd c))).emit
          (Event.fcntlSetflBlocking (s1.pipeFd c)))
    else some (s, w)
  match opened with
  | none =>
    ((.ok false), s.setPipeFd c openRet,
      (w.emit (Event.openWrite (s.pipePath c) openRet)).emit (Event.sleepMs 10))
  | some (s1, w1) =>
    let w2 := w1.emit (Event.write (s1.pipeFd c) (buffer.take write_size) writeRet)
    if writeRet < 0 then
      -- an exception object is constructed and destroyed: the statement has no `throw`
      let _ex := FFMpegWrapperException.new (c.writeFailure ++ w2.errtext)
      ((.ok true), s1, w2)
    else
      ((.ok true), s1, w2)

def FFMpegProcess.WriteVideo (s : FFMpegProcess) (buffer : List Nat) (write_size : Nat)
    (openRet writeRet : Int) (w : World) :
    Except FFMpegWrapperException Bool × FFMpegProcess × World :=
  s.WritePipe .video buffer write_size openRet writeRet w

def FFMpegProcess.WriteAudio (s : FFMpegProcess) (buffer : List Nat) (write_size : Nat)
    (openRet writeRet : Int) (w : World) :
    Except FFMpegWrapperException Bool × FFMpegProcess × World :=
  s.WritePipe .audio buffer write_size openRet writeRet w

/-- The function `ReadOutput(buffer, timeout)` for a buffer of `size` bytes.
`openRet`, `pollRet`, `readRet` are what `open`, `poll` and `read` return if
they are called; the result is the `size_t` the function returns. -/
def FFMpegProcess.ReadOutput (s : FFMpegProcess) (size : Nat) (timeout : Int)
    (openRet pollRet readRet : Int) (w : World) :
    Except FFMpegWrapperException Nat × FFMpegProcess × World :=
  let opened : Option (FFMpegProcess × World) :=
    if s.output_pipe_ < 0 then
      let s1 := { s with output_pipe_ := openRet }
      let w1 := w.emit (Event.openRead s.output_pipe_path_ openRet)
      if s1.output_pipe_ < 0 then none
      else
        some (s1, (w1.emit (Event.fcntlGetfl s1.output_pipe_)).emit
          (Event.fcntlSetflBlocking s1.output_pipe_))
    else some (s, w)
  match opened with
  | none =>
    ((.ok 0), { s with output_pipe_ := openRet },
      (w.emit (Event.openRead s.output_pipe_path_ openRet)).emit (Event.sleepMs 10))
  | some (s1, w1) =>
    let w2 := w1.emit (Event.poll s1.output_pipe_ timeout pollRet)
    if pollRet < 0 then
      (.error (.new ("Failed to to poll output pipe: " ++ w2.errtext)), s1, w2)
    else if pollRet = 0 then
      ((.ok 0), s1, w2)
    else
      let w3 := w2.emit (Event.read s1.output_pipe_ size readRet)
      if readRet < 0 then
        -- an exception object is constructed and destroyed: the statement has no `throw`
        let _ex := FFMpegWrapperException.new ("Failed to read from output pipe: " ++ w3.errtext)
        ((.ok (toSizeT readRet)), s1, w3)
      else
        ((.ok (toSizeT readRet)), s1, w3)

/-! ## The worker loops -/

/-- The loop `while(!start_) sleep_for(10ms)`, which finds the flag unset
`polls` times. -/
def waitForStart : Nat → World → World
  | 0, w => w
  | polls + 1, w => waitForStart polls (w.emit (Event.sleepMs 10))

/-- The local variables of a feed loop. `calls` is a ghost counter: how many
times the data source has been invoked. -/
structure FeedLocals where
  read_pending : Bool
  current_size : Nat
  buffer : List Nat
  calls : Nat
deriving DecidableEq, Repr

/-- What the environment of a feed loop answers: the chunk the `k`-th
invocation of the data source stores at the start of the buffer (its length is
the count the source returns), and what `open` and `write` return when they are
called in iteration `i`. -/
structure FeedEnv where
  src : Nat → List Nat
  openRet : Nat → Int
  writeRet : Nat → Int

structure FeedResult where
  outcome : Except FFMpegWrapperException Unit
  locals : FeedLocals
  process : FFMpegProcess
  world : World

/-- The values of the locals when a feed loop is entered; `buf0` is the content
of the uninitialised buffer. -/
def FeedLocals.initial (buf0 : List Nat) : FeedLocals :=
  { read_pending := true, current_size := 0, buffer := buf0, calls := 0 }

/-- The invocation `current_size = (*func)(buffer.data(), buffer.size())` on a
buffer of `capacity` bytes. -/
def pullSource (c : Chan) (capacity : Nat) (env : FeedEnv) (l : FeedLocals) (w : World) :
    FeedLocals × World :=
  let data := env.src l.calls
  ({ l with current_size := data.length,
            buffer := (data ++ l.buffer.drop data.length).take capacity,
            calls := l.calls + 1 },
   w.emit (Event.source c capacity data))

/-- The feed loop `while(!stop_) { ... }`, which finds the stop flag unset `n`
times; `i` is the index of the iteration about to run. -/
def feedLoop (c : Chan) (capacity : Nat) (env : FeedEnv) :
    Nat → Nat → FeedLocals → FFMpegProcess → World → FeedResult
  | 0, _, l, s, w => { outcome := .ok (), locals := l, process := s, world := w }
  | n + 1, i, l, s, w =>
    let lw := if l.read_pending then pullSource c capacity env l w else (l, w)
    match s.WritePipe c lw.1.buffer lw.1.current_size (env.openRet i) (env.writeRet i) lw.2 with
    | (.ok b, s1, w1) => feedLoop c capacity env n (i + 1) { lw.1 with read_pending := b } s1 w1
    | (.error e, s1, w1) => { outcome := .error e, locals := lw.1, process := s1, world := w1 }

/-- The thread function `VideoInputThreadRun`, with `video_func_` answering as
`env.src`. -/
def VideoInputThreadRun (env : FeedEnv) (polls n : Nat) (buf0 : List Nat)
    (s : FFMpegProcess) (w : World) : FeedResult :=
  feedLoop .video VIDEO_BUFFER_SIZE env n 0 (FeedLocals.initial buf0) s (waitForStart polls w)

/-- The thread function `AudioInputThreadRun`; `audio_func` is `none` for a
null `audio_func_`, and then the function returns before its locals exist (the
result carries their initial values). -/
def AudioInputThreadRun (audio_func : Option (Nat → List Nat)) (openRet writeRet : Nat → Int)
    (polls n : Nat) (buf0 : List Nat) (s : FFMpegProcess) (w : World) : FeedResult :=
  match audio_func with
  | none => { outcome := .ok (), locals := FeedLocals.initial buf0, process := s, world := w }
  | some f =>
    feedLoop .audio AUDIO_BUFFER_SIZE { src := f, openRet := openRet, writeRet := writeRet }
      n 0 (FeedLocals.initial buf0) s (waitForStart polls w)

/-- What `open`, `poll` and `read` return when they are called in iteration `i`
of the drain loop. -/
structure DrainEnv where
  openRet : Nat → Int
  pollRet : Nat → Int
  readRet : Nat → Int

/-- The result of the drain loop. `returned` is a ghost list: the value of
`size` in each iteration in which `ReadOutput` returned. -/
structure DrainResult where
  outcome : Except FFMpegWrapperException Unit
  returned : List Nat
  process : FFMpegProcess
  world : World

/-- The drain loop `while(!stop_) { size = ReadOutput(buffer, 100); sink(size) }`
which finds the stop flag unset `n` times. The sink takes an `int`. -/
def drainLoop (env : DrainEnv) :
    Nat → Nat → List Nat → FFMpegProcess → World → DrainResult
  | 0, _, acc, s, w => { outcome := .ok (), returned := acc, process := s, world := w }
  | n + 1, i, acc, s, w =>
    match s.ReadOutput OUTPUT_BUFFER_SIZE 100 (env.openRet i) (env.pollRet i) (env.readRet i) w with
    | (.ok size, s1, w1) =>
      drainLoop env n (i + 1) (acc ++ [size]) s1 (w1.emit (Event.sink (toInt32 size)))
    | (.error e, s1, w1) => { outcome := .error e, returned := acc, process := s1, world := w1 }

/-- The thread function `OutputThreadRun`. -/
def OutputThreadRun (env : DrainEnv) (polls n : Nat) (s : FFMpegProcess) (w : World) :
    DrainResult :=
  drainLoop env n 0 [] s (waitForStart polls w)

/-- The member initialiser `process_(audio_func != nullptr)` of the wrapper. -/
def Impl.constructProcess (audio_func : Option (Nat → List Nat)) (vpath apath opath : String)
    (rV rA rO : Int) (w : World) : Except FFMpegWrapperException FFMpegProcess × World :=
  FFMpegProcess.ctor audio_func.isSome vpath apath opath rV rA rO w

/-! ## Observations on traces -/

/-- The events appended to the trace since the world was `w`. -/
def World.since (w1 w : World) : List Event := w1.trace.drop w.trace.length

/-- The `(path, result)` of every `mkfifo` call, in order. -/
def mkfifoCalls (tr : List Event) : List (String × Int) :=
  tr.filterMap fun e => match e with
    | Event.mkfifo p r => some (p, r)
    | _ => none

/-- The pids `kill` was called with, in order. -/
def killedPids (tr : List Event) : List Int :=
  tr.filterMap fun e => match e with
    | Event.kill pid _ => some pid
    | _ => none

/-- The chunks handed to `write`, in order. -/
def handedChunks (tr : List Event) : List (List Nat) :=
  tr.filterMap fun e => match e with
    | Event.write _ d _ => some d
    | _ => none

/-- The bytes the pipe took, write by write: of each `write` that returned
`r ≥ 0`, the first `r` bytes handed to it (none when `r < 0`). -/
def takenChunks (tr : List Event) : List (List Nat) :=
  tr.filterMap fun e => match e with
    | Event.write _ d r => some (d.take r.toNat)
    | _ => none

/-- The byte stream the pipe received. -/
def pipeBytes (tr : List Event) : List Nat := (takenChunks tr).flatten

/-- Whether every `write` returned the length of the chunk handed to it. -/
def allWritesFull (tr : List Event) : Bool :=
  tr.all fun e => match e with
    | Event.write _ d r => decide (r = (d.length : Int))
    | _ => true

/-- The byte counts the sink was invoked with, in order. -/
def sinkCalls (tr : List Event) : List Int :=
  tr.filterMap fun e => match e with
    | Event.sink n => some n
    | _ => none

/-- The results of the `read` calls, in order. -/
def readCalls (tr : List Event) : List Int :=
  tr.filterMap fun e => match e with
    | Event.read _ _ r => some r
    | _ => none

/-- The paths `bf::remove` was called on, in order. -/
def removedPaths (tr : List Event) : List String :=
  tr.filterMap fun e => match e with
    | Event.fsRemove p => some p
    | _ => none

/-- The chunks the data source delivered, in order of invocation. -/
def sourceChunks (tr : List Event) : List (List Nat) :=
  tr.filterMap fun e => match e with
    | Event.source _ _ d => some d
    | _ => none

/-- The chunks the source delivered in its first `k` invocations. -/
def pulledChunks (src : Nat → List Nat) (k : Nat) : List (List Nat) :=
  (List.range k).map src

/-- The chunk a feed loop still holds unwritten, if any. -/
def FeedLocals.pending (l : FeedLocals) : List (List Nat) :=
  if l.read_pending then [] else [l.buffer.take l.current_size]

/-- The account of a feed loop that ran from world `w` to the result `r` with
the data source `src`: the source was invoked for its chunks in order, each
once; the chunks handed to `write`, followed by the chunk still pending, are
exactly the chunks pulled, in order; and when every `write` took the full
chunk, the loop returned normally and the bytes the pipe received, followed by
the pending chunk, are the bytes the source produced. -/
def FeedAccount (src : Nat → List Nat) (r : FeedResult) (w : World) : Prop :=
  sourceChunks (r.world.since w) = pulledChunks src r.locals.calls ∧
  handedChunks (r.world.since w) ++ r.locals.pending = pulledChunks src r.locals.calls ∧
  (allWritesFull (r.world.since w) = true →
    r.outcome = .ok () ∧
    pipeBytes (r.world.since w) ++ r.locals.pending.flatten
      = (pulledChunks src r.locals.calls).flatten)

/-! ## Auxiliary facts -/

theorem toInt32_of_lt (x : Nat) (h : x < 2 ^ 31) : toInt32 x = (x : Int) := by
  have h32 : x % 2 ^ 32 = x := Nat.mod_eq_of_lt (by omega)
  unfold toInt32
  rw [h32, if_pos h]

theorem since_append (w1 w : World) (l : List Event) (h : w1.trace = w.trace ++ l) :
    w1.since w = l := by
  simp [World.since, h]

theorem emit_trace (w : World) (e : Event) : (w.emit e).trace = w.trace ++ [e] := rfl

theorem emit_fs (w : World) (e : Event) : (w.emit e).fs = w.fs := rfl

theorem removeIfExists_fs (p : String) (w : World) :
    (removeIfExists p w).fs = w.fs.filter (fun q => q ≠ p) := by
  unfold removeIfExists
  split
  · rfl
  · rename_i h
    simp only [emit_fs]
    symm
    rw [List.filter_eq_self]
    intro q hq
    have : q ≠ p := fun e => h (e ▸ hq)
    simpa using this

theorem removeIfExists_trace (p : String) (w : World) :
    ∃ l, (removeIfExists p w).trace = w.trace ++ l ∧
      removedPaths l = (if p ∈ w.fs then [p] else []) ∧
      mkfifoCalls l = [] ∧ killedPids l = [] := by
  unfold removeIfExists
  split
  · rename_i h
    exact ⟨_, rfl, by simp [removedPaths, h], by simp [mkfifoCalls], by simp [killedPids]⟩
  · rename_i h
    exact ⟨_, rfl, by simp [removedPaths, h], by simp [mkfifoCalls], by simp [killedPids]⟩

theorem RemovePipes_fs (s : FFMpegProcess) (w : World) :
    (s.RemovePipes w).fs =
      ((w.fs.filter (fun q => q ≠ s.video_pipe_path_)).filter
        (fun q => q ≠ s.audio_pipe_path_)).filter (fun q => q ≠ s.output_pipe_path_) := by
  simp only [FFMpegProcess.RemovePipes, removeIfExists_fs]

theorem RemovePipes_not_mem (s : FFMpegProcess) (w : World) (p : String)
    (hp : p = s.video_pipe_path_ ∨ p = s.audio_pipe_path_ ∨ p = s.output_pipe_path_) :
    p ∉ (s.RemovePipes w).fs := by
  rw [RemovePipes_fs]
  simp only [List.mem_filter, decide_eq_true_eq, not_and, not_not]
  rcases hp with h | h | h <;> subst h <;> simp_all

theorem RemovePipes_subset (s : FFMpegProcess) (w : World) (q : String)
    (hq : q ∈ (s.RemovePipes w).fs) : q ∈ w.fs := by
  rw [RemovePipes_fs] at hq
  simp only [List.mem_filter] at hq
  exact hq.1.1.1

theorem RemovePipes_trace (s : FFMpegProcess) (w : World) :
    ∃ l, (s.RemovePipes w).trace = w.trace ++ l ∧
      (removedPaths l).Nodup ∧ (∀ p ∈ removedPaths l, p ∈ w.fs) ∧
      mkfifoCalls l = [] ∧ killedPids l = [] := by
  obtain ⟨l1, h1, r1, m1, k1⟩ := removeIfExists_trace s.video_pipe_path_ w
  obtain ⟨l2, h2, r2, m2, k2⟩ :=
    removeIfExists_trace s.audio_pipe_path_ (removeIfExists s.video_pipe_path_ w)
  obtain ⟨l3, h3, r3, m3, k3⟩ :=
    removeIfExists_trace s.output_pipe_path_
      (removeIfExists s.audio_pipe_path_ (removeIfExists s.video_pipe_path_ w))
  refine ⟨l1 ++ l2 ++ l3, ?_, ?_, ?_, ?_, ?_⟩
  · simp only [FFMpegProcess.RemovePipes, h3, h2, h1, List.append_assoc]
  · have e : removedPaths (l1 ++ l2 ++ l3)
        = removedPaths l1 ++ removedPaths l2 ++ removedPaths l3 := by
      simp [removedPaths, List.filterMap_append]
    rw [e, r1, r2, r3]
    simp only [removeIfExists_fs, List.mem_filter, decide_eq_true_eq]
    split <;> split <;> split <;> simp_all
    all_goals tauto
  · have e : removedPaths (l1 ++ l2 ++ l3)
        = removedPaths l1 ++ removedPaths l2 ++ removedPaths l3 := by
      simp [removedPaths, List.filterMap_append]
    rw [e, r1, r2, r3]
    simp only [removeIfExists_fs, List.mem_filter, decide_eq_true_eq]
    intro p hp
    split at hp <;> split at hp <;> split at hp <;> simp_all
    all_goals
      first
      | (rcases hp with h | h | h <;> subst h <;> tauto)
      | (rcases hp with h | h <;> subst h <;> tauto)
  · have e : mkfifoCalls (l1 ++ l2 ++ l3)
        = mkfifoCalls l1 ++ mkfifoCalls l2 ++ mkfifoCalls l3 := by
      simp [mkfifoCalls, List.filterMap_append]
    rw [e, m1, m2, m3]; rfl
  · have e : killedPids (l1 ++ l2 ++ l3)
        = killedPids l1 ++ killedPids l2 ++ killedPids l3 := by
      simp [killedPids, List.filterMap_append]
    rw [e, k1, k2, k3]; rfl

theorem terminateChild_spec (s : FFMpegProcess) (w : World) :
    (s.terminateChild w).fs = w.fs ∧
    ∃ l, (s.terminateChild w).trace = w.trace ++ l ∧ removedPaths l = [] ∧
      killedPids l = (if s.pid_ ≠ 0 then [s.pid_] else []) := by
  unfold FFMpegProcess.terminateChild
  split
  · rename_i h
    exact ⟨rfl, [Event.kill s.pid_ SIGTERM, Event.waitpid s.pid_],
      by simp [World.emit], by simp [removedPaths], by simp [killedPids, h]⟩
  · rename_i h
    exact ⟨rfl, [], by simp, by simp [removedPaths], by simp [killedPids, h]⟩

theorem closeIfOpen_spec (fd : Int) (w : World) :
    (closeIfOpen fd w).fs = w.fs ∧
    ∃ l, (closeIfOpen fd w).trace = w.trace ++ l ∧ removedPaths l = [] ∧ killedPids l = [] := by
  unfold closeIfOpen
  split
  · exact ⟨rfl, [Event.close fd], rfl, by simp [removedPaths], by simp [killedPids]⟩
  · exact ⟨rfl, [], by simp, by simp [removedPaths], by simp [killedPids]⟩

theorem dtor_trace (s : FFMpegProcess) (w : World) :
    ∃ l4 l, (s.dtor w).trace = w.trace ++ (l4 ++ l) ∧
      removedPaths l4 = [] ∧
      killedPids l4 = (if s.pid_ ≠ 0 then [s.pid_] else []) ∧
      (removedPaths l).Nodup ∧ (∀ p ∈ removedPaths l, p ∈ w.fs) ∧ killedPids l = [] := by
  obtain ⟨f1, l1, t1, r1, k1⟩ := terminateChild_spec s w
  obtain ⟨f2, l2, t2, r2, k2⟩ := closeIfOpen_spec s.video_pipe_ (s.terminateChild w)
  obtain ⟨f3, l3, t3, r3, k3⟩ :=
    closeIfOpen_spec s.audio_pipe_ (closeIfOpen s.video_pipe_ (s.terminateChild w))
  obtain ⟨f4, l4, t4, r4, k4⟩ :=
    closeIfOpen_spec s.output_pipe_
      (closeIfOpen s.audio_pipe_ (closeIfOpen s.video_pipe_ (s.terminateChild w)))
  obtain ⟨l, hl, hnd, hmem, _, hk⟩ :=
    RemovePipes_trace s (closeIfOpen s.output_pipe_
      (closeIfOpen s.audio_pipe_ (closeIfOpen s.video_pipe_ (s.terminateChild w))))
  refine ⟨l1 ++ l2 ++ l3 ++ l4, l, ?_, ?_, ?_, hnd, ?_, hk⟩
  · simp only [FFMpegProcess.dtor, hl, t4, t3, t2, t1, List.append_assoc]
  · have e : removedPaths (l1 ++ l2 ++ l3 ++ l4)
        = removedPaths l1 ++ removedPaths l2 ++ removedPaths l3 ++ removedPaths l4 := by
      simp [removedPaths, List.filterMap_append]
    rw [e, r1, r2, r3, r4]; rfl
  · have e : killedPids (l1 ++ l2 ++ l3 ++ l4)
        = killedPids l1 ++ killedPids l2 ++ killedPids l3 ++ killedPids l4 := by
      simp [killedPids, List.filterMap_append]
    rw [e, k1, k2, k3, k4]; simp
  · intro p hp
    have := hmem p hp
    rwa [f4, f3, f2, f1] at this

theorem createPipes_spec (s : FFMpegProcess) (rV rA rO : Int) (w : World) :
    ∃ l, (s.createPipes rV rA rO w).2.trace = w.trace ++ l ∧
      mkfifoCalls l =
        (if rV ≠ 0 then [(s.video_pipe_path_, rV)]
         else if s.audio_pipe_path_ ≠ "" then
           (if rA ≠ 0 then [(s.video_pipe_path_, rV), (s.audio_pipe_path_, rA)]
            else [(s.video_pipe_path_, rV), (s.audio_pipe_path_, rA), (s.output_pipe_path_, rO)])
         else [(s.video_pipe_path_, rV), (s.output_pipe_path_, rO)]) ∧
      ((∃ e, (s.createPipes rV rA rO w).1 = .error e) ↔
        (rV ≠ 0 ∨ (s.audio_pipe_path_ ≠ "" ∧ rA ≠ 0) ∨ rO ≠ 0)) := by
  unfold FFMpegProcess.createPipes
  by_cases hV : rV = 0 <;> by_cases hA : s.audio_pipe_path_ = "" <;>
    by_cases hrA : rA = 0 <;> by_cases hO : rO = 0 <;>
    simp [hV, hA, hrA, hO, mkfifo, mkfifoCalls]

theorem createPipes_fs (s : FFMpegProcess) (rV rA rO : Int) (w : World) (q : String)
    (hq : q ∈ (s.createPipes rV rA rO w).2.fs) :
    q ∈ w.fs ∨ q = s.video_pipe_path_ ∨ (s.audio_pipe_path_ ≠ "" ∧ q = s.audio_pipe_path_) ∨
      q = s.output_pipe_path_ := by
  unfold FFMpegProcess.createPipes at hq
  by_cases hV : rV = 0 <;> by_cases hA : s.audio_pipe_path_ = "" <;>
    by_cases hrA : rA = 0 <;> by_cases hO : rO = 0 <;>
    simp [hV, hA, hrA, hO, mkfifo] at hq <;> tauto

theorem ctor_of_error (has_audio_input : Bool) (vpath apath opath : String)
    (rV rA rO : Int) (w : World) (e : FFMpegWrapperException)
    (he : ((FFMpegProcess.initial has_audio_input vpath apath opath).createPipes rV rA rO w).1
      = .error e) :
    FFMpegProcess.ctor has_audio_input vpath apath opath rV rA rO w
      = (.ok (FFMpegProcess.initial has_audio_input vpath apath opath),
         (FFMpegProcess.initial has_audio_input vpath apath opath).RemovePipes
          ((FFMpegProcess.initial has_audio_input vpath apath opath).createPipes rV rA rO w).2) := by
  unfold FFMpegProcess.ctor
  dsimp only
  split
  · rename_i heq
    rw [heq] at he
    cases he
  · rename_i heq
    rw [heq]

theorem ctor_of_ok (has_audio_input : Bool) (vpath apath opath : String)
    (rV rA rO : Int) (w : World)
    (he : ((FFMpegProcess.initial has_audio_input vpath apath opath).createPipes rV rA rO w).1
      = .ok ()) :
    FFMpegProcess.ctor has_audio_input vpath apath opath rV rA rO w
      = (.ok (FFMpegProcess.initial has_audio_input vpath apath opath),
          ((FFMpegProcess.initial has_audio_input vpath apath opath).createPipes rV rA rO w).2) := by
  unfold FFMpegProcess.ctor
  dsimp only
  split
  · rename_i heq
    rw [heq]
  · rename_i heq
    rw [heq] at he
    cases he

theorem ctor_fst (has_audio_input : Bool) (vpath apath opath : String)
    (rV rA rO : Int) (w : World) :
    (FFMpegProcess.ctor has_audio_input vpath apath opath rV rA rO w).1
      = .ok (FFMpegProcess.initial has_audio_input vpath apath opath) := by
  cases hr : ((FFMpegProcess.initial has_audio_input vpath apath opath).createPipes
    rV rA rO w).1 with
  | error e => rw [ctor_of_error _ _ _ _ _ _ _ _ e hr]
  | ok u => cases u; rw [ctor_of_ok _ _ _ _ _ _ _ _ hr]

theorem ctor_mkfifoCalls (has_audio_input : Bool) (vpath apath opath : String)
    (rV rA rO : Int) (w : World) :
    mkfifoCalls ((FFMpegProcess.ctor has_audio_input vpath apath opath rV rA rO w).2.since w) =
      (if rV ≠ 0 then
        [((FFMpegProcess.initial has_audio_input vpath apath opath).video_pipe_path_, rV)]
       else if (FFMpegProcess.initial has_audio_input vpath apath opath).audio_pipe_path_ ≠ "" then
         (if rA ≠ 0 then
            [((FFMpegProcess.initial has_audio_input vpath apath opath).video_pipe_path_, rV),
             ((FFMpegProcess.initial has_audio_input vpath apath opath).audio_pipe_path_, rA)]
          else
            [((FFMpegProcess.initial has_audio_input vpath apath opath).video_pipe_path_, rV),
             ((FFMpegProcess.initial has_audio_input vpath apath opath).audio_pipe_path_, rA),
             ((FFMpegProcess.initial has_audio_input vpath apath opath).output_pipe_path_, rO)])
       else
         [((FFMpegProcess.initial has_audio_input vpath apath opath).video_pipe_path_, rV),
          ((FFMpegProcess.initial has_audio_input vpath apath opath).output_pipe_path_, rO)]) := by
  obtain ⟨l, ht, hm, _⟩ :=
    createPipes_spec (FFMpegProcess.initial has_audio_input vpath apath opath) rV rA rO w
  obtain ⟨l2, ht2, _, _, hm2, _⟩ :=
    RemovePipes_trace (FFMpegProcess.initial has_audio_input vpath apath opath)
      ((FFMpegProcess.initial has_audio_input vpath apath opath).createPipes rV rA rO w).2
  rw [← hm]
  cases hr : ((FFMpegProcess.initial has_audio_input vpath apath opath).createPipes
    rV rA rO w).1 with
  | error e =>
    rw [ctor_of_error _ _ _ _ _ _ _ _ e hr,
      since_append _ _ (l ++ l2) (by rw [ht2, ht, List.append_assoc])]
    have : mkfifoCalls (l ++ l2) = mkfifoCalls l ++ mkfifoCalls l2 := by
      simp [mkfifoCalls, List.filterMap_append]
    rw [this, hm2, List.append_nil]
  | ok u =>
    cases u
    rw [ctor_of_ok _ _ _ _ _ _ _ _ hr, since_append _ _ l ht]

theorem ctor_fs (has_audio_input : Bool) (vpath apath opath : String)
    (rV rA rO : Int) (w : World) (q : String)
    (hq : q ∈ (FFMpegProcess.ctor has_audio_input vpath apath opath rV rA rO w).2.fs) :
    q ∈ w.fs ∨ q = (FFMpegProcess.initial has_audio_input vpath apath opath).video_pipe_path_ ∨
      ((FFMpegProcess.initial has_audio_input vpath apath opath).audio_pipe_path_ ≠ "" ∧
        q = (FFMpegProcess.initial has_audio_input vpath apath opath).audio_pipe_path_) ∨
      q = (FFMpegProcess.initial has_audio_input vpath apath opath).output_pipe_path_ := by
  cases hr : ((FFMpegProcess.initial has_audio_input vpath apath opath).createPipes
    rV rA rO w).1 with
  | error e =>
    rw [ctor_of_error _ _ _ _ _ _ _ _ e hr] at hq
    exact createPipes_fs _ _ _ _ _ q (RemovePipes_subset _ _ q hq)
  | ok u =>
    cases u
    rw [ctor_of_ok _ _ _ _ _ _ _ _ hr] at hq
    exact createPipes_fs _ _ _ _ _ q hq

theorem waitForStart_spec (polls : Nat) (w : World) :
    ∃ l, (waitForStart polls w).trace = w.trace ++ l ∧ (waitForStart polls w).fs = w.fs ∧
      handedChunks l = [] ∧ takenChunks l = [] ∧ sourceChunks l = [] ∧ sinkCalls l = [] ∧
      allWritesFull l = true := by
  induction polls generalizing w with
  | zero => exact ⟨[], by simp [waitForStart], rfl, rfl, rfl, rfl, rfl, rfl⟩
  | succ k ih =>
    obtain ⟨l, h1, h2, h3, h4, h5, h6, h7⟩ := ih (w.emit (Event.sleepMs 10))
    refine ⟨Event.sleepMs 10 :: l, ?_, ?_, ?_, ?_, ?_, ?_, ?_⟩
    · rw [waitForStart, h1, emit_trace, List.append_assoc]; rfl
    · rw [waitForStart, h2, emit_fs]
    · simpa [handedChunks] using h3
    · simpa [takenChunks] using h4
    · simpa [sourceChunks] using h5
    · simpa [sinkCalls] using h6
    · simpa [allWritesFull] using h7

theorem handedChunks_append (a b : List Event) :
    handedChunks (a ++ b) = handedChunks a ++ handedChunks b := by
  simp [handedChunks, List.filterMap_append]

theorem takenChunks_append (a b : List Event) :
    takenChunks (a ++ b) = takenChunks a ++ takenChunks b := by
  simp [takenChunks, List.filterMap_append]

theorem sourceChunks_append (a b : List Event) :
    sourceChunks (a ++ b) = sourceChunks a ++ sourceChunks b := by
  simp [sourceChunks, List.filterMap_append]

theorem sinkCalls_append (a b : List Event) :
    sinkCalls (a ++ b) = sinkCalls a ++ sinkCalls b := by
  simp [sinkCalls, List.filterMap_append]

theorem readCalls_append (a b : List Event) :
    readCalls (a ++ b) = readCalls a ++ readCalls b := by
  simp [readCalls, List.filterMap_append]

/-- When every `write` returned the full length, the pipe took exactly the
chunks handed to it. -/
theorem takenChunks_of_full (tr : List Event) (h : allWritesFull tr = true) :
    takenChunks tr = handedChunks tr := by
  induction tr with
  | nil => rfl
  | cons e t ih =>
    have ht : allWritesFull t = true := by
      simp only [allWritesFull, List.all_cons, Bool.and_eq_true] at h
      exact h.2
    have hcons : takenChunks (e :: t) = takenChunks [e] ++ takenChunks t :=
      takenChunks_append [e] t
    have hcons2 : handedChunks (e :: t) = handedChunks [e] ++ handedChunks t :=
      handedChunks_append [e] t
    rw [hcons, hcons2, ih ht]
    congr 1
    cases e <;> simp [takenChunks, handedChunks]
    rename_i fd d r
    simp only [allWritesFull, List.all_cons, Bool.and_eq_true, decide_eq_true_eq] at h
    rw [h.1]
    simp

theorem WritePipe_spec (c : Chan) (s : FFMpegProcess) (buffer : List Nat) (n : Nat)
    (openRet writeRet : Int) (w : World) :
    ∃ b l, (s.WritePipe c buffer n openRet writeRet w).1 = .ok b ∧
      (s.WritePipe c buffer n openRet writeRet w).2.2.trace = w.trace ++ l ∧
      handedChunks l = (if b then [buffer.take n] else []) ∧
      sourceChunks l = [] ∧
      (b = false ↔ (s.pipeFd c < 0 ∧ openRet < 0)) := by
  have hset : (s.setPipeFd c openRet).pipeFd c = openRet := by cases c <;> rfl
  unfold FFMpegProcess.WritePipe
  by_cases h1 : s.pipeFd c < 0
  · by_cases h2 : openRet < 0
    · refine ⟨false, [Event.openWrite (s.pipePath c) openRet, Event.sleepMs 10], ?_, ?_, ?_, ?_, ?_⟩
      · simp [h1, h2, hset]
      · simp [h1, h2, hset, World.emit]
      · simp [handedChunks]
      · simp [sourceChunks]
      · simp [h1, h2]
    · refine ⟨true, [Event.openWrite (s.pipePath c) openRet, Event.fcntlGetfl openRet,
        Event.fcntlSetflBlocking openRet, Event.write openRet (buffer.take n) writeRet],
        ?_, ?_, ?_, ?_, ?_⟩
      · simp only [h1, h2, hset, if_true, if_false]; split <;> rfl
      · simp only [h1, h2, hset, if_true, if_false]; split <;> simp [World.emit]
      · simp [handedChunks]
      · simp [sourceChunks]
      · simp [h2]
  · refine ⟨true, [Event.write (s.pipeFd c) (buffer.take n) writeRet], ?_, ?_, ?_, ?_, ?_⟩
    · simp only [h1, if_false]; split <;> rfl
    · simp only [h1, if_false]; split <;> simp [World.emit]
    · simp [handedChunks]
    · simp [sourceChunks]
    · simp [h1]

theorem pullSource_take (c : Chan) (cap : Nat) (env : FeedEnv) (l : FeedLocals) (w : World)
    (hsrc : (env.src l.calls).length ≤ cap) :
    (pullSource c cap env l w).1.buffer.take (pullSource c cap env l w).1.current_size
      = env.src l.calls := by
  simp only [pullSource]
  rw [List.take_take, Nat.min_eq_left hsrc, List.take_left']
  rfl

theorem feedLoop_spec (c : Chan) (cap : Nat) (env : FeedEnv)
    (hsrc : ∀ k, (env.src k).length ≤ cap) :
    ∀ (n i : Nat) (l : FeedLocals) (s : FFMpegProcess) (w : World),
      ∃ tr m, (feedLoop c cap env n i l s w).world.trace = w.trace ++ tr ∧
        (feedLoop c cap env n i l s w).outcome = .ok () ∧
        (feedLoop c cap env n i l s w).locals.calls = l.calls + m ∧
        sourceChunks tr = (List.range' l.calls m).map env.src ∧
        handedChunks tr ++ (feedLoop c cap env n i l s w).locals.pending
          = l.pending ++ (List.range' l.calls m).map env.src := by
  intro n
  induction n with
  | zero =>
    intro i l s w
    exact ⟨[], 0, by simp [feedLoop], rfl, rfl, rfl, by simp [feedLoop, handedChunks]⟩
  | succ n ih =>
    intro i l s w
    by_cases hp : l.read_pending = true
    · obtain ⟨b, lW, hb, htW, hhW, hsW, _⟩ :=
        WritePipe_spec c s (pullSource c cap env l w).1.buffer
          (pullSource c cap env l w).1.current_size (env.openRet i) (env.writeRet i)
          (pullSource c cap env l w).2
      have htake := pullSource_take c cap env l w (hsrc l.calls)
      rw [htake] at hhW
      rcases hW : s.WritePipe c (pullSource c cap env l w).1.buffer
          (pullSource c cap env l w).1.current_size (env.openRet i) (env.writeRet i)
          (pullSource c cap env l w).2 with ⟨r, s1, w1⟩
      rw [hW] at hb htW
      simp only at hb htW
      subst hb
      have hstep : feedLoop c cap env (n + 1) i l s w
          = feedLoop c cap env n (i + 1)
              { (pullSource c cap env l w).1 with read_pending := b } s1 w1 := by
        rw [feedLoop]
        simp only [hp, if_true, hW]
      have hcalls : ({ (pullSource c cap env l w).1 with read_pending := b } : FeedLocals).calls
          = l.calls + 1 := rfl
      have hpend : ({ (pullSource c cap env l w).1 with read_pending := b } : FeedLocals).pending
          = (if b then [] else [env.src l.calls]) := by
        simp only [FeedLocals.pending]
        rw [htake]
      have hw0 : (pullSource c cap env l w).2.trace
          = w.trace ++ [Event.source c cap (env.src l.calls)] := rfl
      generalize ({ (pullSource c cap env l w).1 with read_pending := b } : FeedLocals) = l2
        at hstep hcalls hpend
      obtain ⟨tr, m, h1, h2, h3, h4, h5⟩ := ih (i + 1) l2 s1 w1
      rw [hstep]
      refine ⟨[Event.source c cap (env.src l.calls)] ++ lW ++ tr, m + 1, ?_, h2, ?_, ?_, ?_⟩
      · rw [h1, htW, hw0]
        simp only [List.append_assoc]
      · rw [h3, hcalls]
        omega
      · rw [sourceChunks_append, sourceChunks_append, hsW, h4, hcalls, List.range'_succ]
        simp [sourceChunks]
      · have hl : l.pending = [] := by simp [FeedLocals.pending, hp]
        rw [handedChunks_append, handedChunks_append, hhW, List.append_assoc,
          List.append_assoc, h5, hpend, hcalls, hl, List.range'_succ]
        cases b <;> simp [handedChunks]
    · have hp2 : l.read_pending = false := by simpa using hp
      obtain ⟨b, lW, hb, htW, hhW, hsW, _⟩ :=
        WritePipe_spec c s l.buffer l.current_size (env.openRet i) (env.writeRet i) w
      rcases hW : s.WritePipe c l.buffer l.current_size (env.openRet i) (env.writeRet i) w
        with ⟨r, s1, w1⟩
      rw [hW] at hb htW
      simp only at hb htW
      subst hb
      have hstep : feedLoop c cap env (n + 1) i l s w
          = feedLoop c cap env n (i + 1) { l with read_pending := b } s1 w1 := by
        rw [feedLoop]
        simp only [hp2, Bool.false_eq_true, if_false, hW]
      have hcalls : ({ l with read_pending := b } : FeedLocals).calls = l.calls := rfl
      have hpend : ({ l with read_pending := b } : FeedLocals).pending
          = (if b then [] else [l.buffer.take l.current_size]) := by
        simp only [FeedLocals.pending]
      generalize ({ l with read_pending := b } : FeedLocals) = l2 at hstep hcalls hpend
      obtain ⟨tr, m, h1, h2, h3, h4, h5⟩ := ih (i + 1) l2 s1 w1
      rw [hstep]
      refine ⟨lW ++ tr, m, ?_, h2, ?_, ?_, ?_⟩
      · rw [h1, htW]
        simp only [List.append_assoc]
      · rw [h3, hcalls]
      · rw [sourceChunks_append, hsW, h4, hcalls]
        rfl
      · have hl : l.pending = [l.buffer.take l.current_size] := by
          simp [FeedLocals.pending, hp2]
        rw [handedChunks_append, hhW, List.append_assoc, h5, hpend, hcalls, hl]
        cases b <;> simp

theorem feedRun_account (c : Chan) (cap : Nat) (env : FeedEnv)
    (hsrc : ∀ k, (env.src k).length ≤ cap) (polls n : Nat) (buf0 : List Nat)
    (s : FFMpegProcess) (w : World) :
    FeedAccount env.src
      (feedLoop c cap env n 0 (FeedLocals.initial buf0) s (waitForStart polls w)) w := by
  obtain ⟨l0, ht0, _, hh0, hk0, hs0, _, _⟩ := waitForStart_spec polls w
  obtain ⟨tr, m, h1, h2, h3, h4, h5⟩ :=
    feedLoop_spec c cap env hsrc n 0 (FeedLocals.initial buf0) s (waitForStart polls w)
  have hsince : (feedLoop c cap env n 0 (FeedLocals.initial buf0) s
      (waitForStart polls w)).world.since w = l0 ++ tr :=
    since_append _ _ _ (by rw [h1, ht0, List.append_assoc])
  have hcalls : (feedLoop c cap env n 0 (FeedLocals.initial buf0) s
      (waitForStart polls w)).locals.calls = m := by
    rw [h3]; simp [FeedLocals.initial]
  have hini : (FeedLocals.initial buf0).calls = 0 := rfl
  have hpini : (FeedLocals.initial buf0).pending = [] := rfl
  rw [hini] at h4 h5
  rw [hpini, List.nil_append] at h5
  have hhanded : handedChunks (l0 ++ tr) ++ (feedLoop c cap env n 0 (FeedLocals.initial buf0) s
      (waitForStart polls w)).locals.pending = pulledChunks env.src m := by
    rw [handedChunks_append, hh0, List.nil_append, h5, pulledChunks, List.range_eq_range']
  refine ⟨?_, ?_, ?_⟩
  · rw [hsince, hcalls, sourceChunks_append, hs0, List.nil_append, h4, pulledChunks,
      List.range_eq_range']
  · rw [hsince, hcalls]
    exact hhanded
  · rw [hsince, hcalls]
    intro hfull
    refine ⟨h2, ?_⟩
    rw [pipeBytes, takenChunks_of_full _ hfull, ← List.flatten_append, hhanded]

theorem ReadOutput_not_open (s : FFMpegProcess) (size : Nat) (timeout : Int)
    (openRet pollRet readRet : Int) (w : World)
    (h1 : s.output_pipe_ < 0) (h2 : openRet < 0) :
    s.ReadOutput size timeout openRet pollRet readRet w =
      ((.ok 0), { s with output_pipe_ := openRet },
        (w.emit (Event.openRead s.output_pipe_path_ openRet)).emit (Event.sleepMs 10)) := by
  simp [FFMpegProcess.ReadOutput, h1, h2]

/-- What `ReadOutput` does once the pipe is open (it was, or `open` succeeds). -/
theorem ReadOutput_open (s : FFMpegProcess) (size : Nat) (timeout : Int)
    (openRet pollRet readRet : Int) (w : World)
    (hopen : 0 ≤ s.output_pipe_ ∨ 0 ≤ openRet) :
    ∃ pre fd, (0 ≤ fd) ∧
      (s.ReadOutput size timeout openRet pollRet readRet w).2.2.trace =
        w.trace ++ pre ++ [Event.poll fd timeout pollRet] ++
          (if 0 < pollRet then [Event.read fd size readRet] else []) ∧
      readCalls pre = [] ∧ sinkCalls pre = [] ∧
      (s.ReadOutput size timeout openRet pollRet readRet w).1 =
        (if pollRet < 0 then
          .error (.new ("Failed to to poll output pipe: " ++ w.errtext))
         else if pollRet = 0 then .ok 0 else .ok (toSizeT readRet)) := by
  unfold FFMpegProcess.ReadOutput
  by_cases h1 : s.output_pipe_ < 0
  · have h2 : ¬ (openRet < 0) := by omega
    refine ⟨[Event.openRead s.output_pipe_path_ openRet, Event.fcntlGetfl openRet,
      Event.fcntlSetflBlocking openRet], openRet, by omega, ?_, by simp [readCalls],
      by simp [sinkCalls], ?_⟩
    · by_cases hp : pollRet < 0
      · have : ¬ (0 < pollRet) := by omega
        simp [h1, h2, hp, this, World.emit]
      · by_cases hz : pollRet = 0
        · simp [h1, h2, hz, World.emit]
        · have : 0 < pollRet := by omega
          simp only [h1, h2, hp, hz, this, if_true, if_false]
          split <;> simp [World.emit]
    · by_cases hp : pollRet < 0
      · simp [h1, h2, hp, World.emit]
      · by_cases hz : pollRet = 0
        · simp [h1, h2, hz]
        · simp only [h1, h2, hp, hz, if_true, if_false]
          split <;> rfl
  · refine ⟨[], s.output_pipe_, by omega, ?_, by simp [readCalls], by simp [sinkCalls], ?_⟩
    · by_cases hp : pollRet < 0
      · have : ¬ (0 < pollRet) := by omega
        simp [h1, hp, this, World.emit]
      · by_cases hz : pollRet = 0
        · simp [h1, hz, World.emit]
        · have : 0 < pollRet := by omega
          simp only [h1, hp, hz, this, if_true, if_false]
          split <;> simp [World.emit]
    · by_cases hp : pollRet < 0
      · simp [h1, hp, World.emit]
      · by_cases hz : pollRet = 0
        · simp [h1, hz]
        · simp only [h1, hp, hz, if_true, if_false]
          split <;> rfl

/-- Every call of `ReadOutput` either returns a count, or raises because `poll`
failed; it adds no sink call to the trace. -/
theorem ReadOutput_cases (s : FFMpegProcess) (size : Nat) (timeout : Int)
    (openRet pollRet readRet : Int) (w : World) :
    ∃ l, (s.ReadOutput size timeout openRet pollRet readRet w).2.2.trace = w.trace ++ l ∧
      sinkCalls l = [] ∧
      ((∃ x, (s.ReadOutput size timeout openRet pollRet readRet w).1 = .ok x ∧
          (x = 0 ∨ (0 < pollRet ∧ x = toSizeT readRet))) ∨
       ((∃ e, (s.ReadOutput size timeout openRet pollRet readRet w).1 = .error e) ∧
         pollRet < 0)) := by
  by_cases hopen : 0 ≤ s.output_pipe_ ∨ 0 ≤ openRet
  · obtain ⟨pre, fd, _, ht, _, hs, hr⟩ :=
      ReadOutput_open s size timeout openRet pollRet readRet w hopen
    refine ⟨pre ++ [Event.poll fd timeout pollRet] ++
      (if 0 < pollRet then [Event.read fd size readRet] else []), ?_, ?_, ?_⟩
    · rw [ht]; simp only [List.append_assoc]
    · rw [sinkCalls_append, sinkCalls_append, hs]
      split <;> simp [sinkCalls]
    · rw [hr]
      by_cases hp : pollRet < 0
      · exact Or.inr ⟨⟨.new ("Failed to to poll output pipe: " ++ w.errtext), by simp [hp]⟩, hp⟩
      · by_cases hz : pollRet = 0
        · exact Or.inl ⟨0, by simp [hz], Or.inl rfl⟩
        · exact Or.inl ⟨toSizeT readRet, by simp [hp, hz], Or.inr ⟨by omega, rfl⟩⟩
  · have h1 : s.output_pipe_ < 0 := by omega
    have h2 : openRet < 0 := by omega
    rw [ReadOutput_not_open s size timeout openRet pollRet readRet w h1 h2]
    exact ⟨[Event.openRead s.output_pipe_path_ openRet, Event.sleepMs 10],
      by simp [World.emit], by simp [sinkCalls], Or.inl ⟨0, rfl, Or.inl rfl⟩⟩

theorem drainLoop_spec (env : DrainEnv) :
    ∀ (n i : Nat) (acc : List Nat) (s : FFMpegProcess) (w : World),
      ∃ tr ret, (drainLoop env n i acc s w).world.trace = w.trace ++ tr ∧
        (drainLoop env n i acc s w).returned = acc ++ ret ∧
        sinkCalls tr = ret.map toInt32 ∧
        ((drainLoop env n i acc s w).outcome = .ok () → ret.length = n) ∧
        (∀ e, (drainLoop env n i acc s w).outcome = .error e →
          ret.length < n ∧ env.pollRet (i + ret.length) < 0) ∧
        (∀ (k x : Nat), ret[k]? = some x →
          x = 0 ∨ (0 < env.pollRet (i + k) ∧ x = toSizeT (env.readRet (i + k)))) := by
  intro n
  induction n with
  | zero =>
    intro i acc s w
    exact ⟨[], [], by simp [drainLoop], by simp [drainLoop], rfl, fun _ => rfl,
      fun e h => by simp [drainLoop] at h, fun k x h => by simp at h⟩
  | succ n ih =>
    intro i acc s w
    obtain ⟨l, ht, hs, hcase⟩ :=
      ReadOutput_cases s OUTPUT_BUFFER_SIZE 100 (env.openRet i) (env.pollRet i) (env.readRet i) w
    rcases hR : s.ReadOutput OUTPUT_BUFFER_SIZE 100 (env.openRet i) (env.pollRet i)
      (env.readRet i) w with ⟨r, s1, w1⟩
    rw [hR] at ht hcase
    simp only at ht hcase
    rcases hcase with ⟨x, hx, hval⟩ | ⟨⟨e, he⟩, hneg⟩
    · subst hx
      have hstep : drainLoop env (n + 1) i acc s w
          = drainLoop env n (i + 1) (acc ++ [x]) s1 (w1.emit (Event.sink (toInt32 x))) := by
        rw [drainLoop]
        simp only [hR]
      obtain ⟨tr, ret, h1, h2, h3, h4, h5, h6⟩ :=
        ih (i + 1) (acc ++ [x]) s1 (w1.emit (Event.sink (toInt32 x)))
      rw [hstep]
      refine ⟨l ++ [Event.sink (toInt32 x)] ++ tr, x :: ret, ?_, ?_, ?_, ?_, ?_, ?_⟩
      · rw [h1, emit_trace, ht]; simp only [List.append_assoc]
      · rw [h2]; simp
      · rw [sinkCalls_append, sinkCalls_append, hs, h3]
        simp [sinkCalls]
      · intro hok
        simp [h4 hok]
      · intro e he
        obtain ⟨hlt, hp⟩ := h5 e he
        refine ⟨by simp only [List.length_cons]; omega, ?_⟩
        have : i + (x :: ret).length = i + 1 + ret.length := by
          simp only [List.length_cons]; omega
        rw [this]
        exact hp
      · intro k y hk
        cases k with
        | zero =>
          simp only [List.getElem?_cons_zero, Option.some.injEq] at hk
          subst hk
          simpa using hval
        | succ k =>
          simp only [List.getElem?_cons_succ] at hk
          have := h6 k y hk
          have e : i + (k + 1) = i + 1 + k := by omega
          rw [e]
          exact this
    · subst he
      have hstep : drainLoop env (n + 1) i acc s w
          = { outcome := .error e, returned := acc, process := s1, world := w1 } := by
        rw [drainLoop]
        simp only [hR]
      rw [hstep]
      exact ⟨l, [], ht, by simp, by simp [hs], fun h => by simp at h,
        fun e2 _ => ⟨by simp, by simpa using hneg⟩, fun k x h => by simp at h⟩

/-! ## The claims -/

/-- C1 (as amended): for data sources that return between 0 and `capacity`
bytes per call and for every sequence of pipe-open and write results, the video
feed loop and, identically, the audio feed loop return normally, invoke the
source once per chunk, and hand every pulled chunk to `write` exactly once and
in source order, the only chunk not handed over being the one still pending
when the stop flag is observed (a chunk pulled while the pipe could not be
opened is retried without a new pull). When every `write` takes the full chunk,
the bytes the pipe received, followed by the pending chunk, are the bytes the
source produced. -/
theorem C1_feed_loops_hand_over_every_chunk (venv aenv : FeedEnv) (polls n : Nat)
    (buf0 : List Nat) (s : FFMpegProcess) (w : World)
    (hv : ∀ k, (venv.src k).length ≤ VIDEO_BUFFER_SIZE)
    (ha : ∀ k, (aenv.src k).length ≤ AUDIO_BUFFER_SIZE) :
    FeedAccount venv.src (VideoInputThreadRun venv polls n buf0 s w) w ∧
    FeedAccount aenv.src
      (AudioInputThreadRun (some aenv.src) aenv.openRet aenv.writeRet polls n buf0 s w) w :=
  ⟨feedRun_account .video VIDEO_BUFFER_SIZE venv hv polls n buf0 s w,
   feedRun_account .audio AUDIO_BUFFER_SIZE
    { src := aenv.src, openRet := aenv.openRet, writeRet := aenv.writeRet } ha polls n buf0 s w⟩

/-- Witness of C1: two-byte chunks, a pipe that opens in the third iteration,
writes that take the full chunk, five iterations before the stop. -/
theorem C1_feed_loops_hand_over_every_chunk_witness :
    (∀ k, ((fun (j : Nat) => [j, j + 1]) k).length ≤ VIDEO_BUFFER_SIZE) ∧
    (∀ k, ((fun (j : Nat) => [j, j + 1]) k).length ≤ AUDIO_BUFFER_SIZE) ∧
    allWritesFull ((VideoInputThreadRun
        { src := fun (j : Nat) => [j, j + 1], openRet := fun i => if i < 2 then -1 else 7,
          writeRet := fun _ => 2 }
        1 5 [] (FFMpegProcess.initial true "/tmp/v" "/tmp/a" "/tmp/o")
        { fs := ["/tmp/v", "/tmp/a", "/tmp/o"], trace := [], errtext := "" }).world.since
      { fs := ["/tmp/v", "/tmp/a", "/tmp/o"], trace := [], errtext := "" }) = true ∧
    FeedAccount (fun (j : Nat) => [j, j + 1])
      (VideoInputThreadRun
        { src := fun (j : Nat) => [j, j + 1], openRet := fun i => if i < 2 then -1 else 7,
          writeRet := fun _ => 2 }
        1 5 [] (FFMpegProcess.initial true "/tmp/v" "/tmp/a" "/tmp/o")
        { fs := ["/tmp/v", "/tmp/a", "/tmp/o"], trace := [], errtext := "" })
      { fs := ["/tmp/v", "/tmp/a", "/tmp/o"], trace := [], errtext := "" } ∧
    FeedAccount (fun (j : Nat) => [j, j + 1])
      (AudioInputThreadRun (some (fun (j : Nat) => [j, j + 1]))
        (fun i => if i < 2 then -1 else 7) (fun _ => 2)
        1 5 [] (FFMpegProcess.initial true "/tmp/v" "/tmp/a" "/tmp/o")
        { fs := ["/tmp/v", "/tmp/a", "/tmp/o"], trace := [], errtext := "" })
      { fs := ["/tmp/v", "/tmp/a", "/tmp/o"], trace := [], errtext := "" } :=
  ⟨fun _ => by simp [VIDEO_BUFFER_SIZE], fun _ => by simp [AUDIO_BUFFER_SIZE], by decide,
   C1_feed_loops_hand_over_every_chunk
    { src := fun (j : Nat) => [j, j + 1], openRet := fun i => if i < 2 then -1 else 7,
      writeRet := fun _ => 2 }
    { src := fun (j : Nat) => [j, j + 1], openRet := fun i => if i < 2 then -1 else 7,
      writeRet := fun _ => 2 }
    1 5 [] (FFMpegProcess.initial true "/tmp/v" "/tmp/a" "/tmp/o")
    { fs := ["/tmp/v", "/tmp/a", "/tmp/o"], trace := [], errtext := "" }
    (fun _ => by simp [VIDEO_BUFFER_SIZE]) (fun _ => by simp [AUDIO_BUFFER_SIZE])⟩

/-- Counterexample to C1 as stated: the source delivers a four-byte chunk, the
video pipe opens, and the `write` fails with `-1`. The loop goes on with
nothing pending: four bytes were produced, four were handed to `write`, and the
pipe received none. -/
theorem C1_counterexample_failed_write :
    (∀ k, ((fun (_ : Nat) => ([1, 2, 3, 4] : List Nat)) k).length ≤ VIDEO_BUFFER_SIZE) ∧
    (VideoInputThreadRun
        { src := fun (_ : Nat) => ([1, 2, 3, 4] : List Nat), openRet := fun _ => 3, writeRet := fun _ => -1 }
        0 1 [] (FFMpegProcess.initial false "/tmp/v" "" "/tmp/o")
        { fs := ["/tmp/v", "/tmp/o"], trace := [], errtext := "" }).locals.pending = [] ∧
    (VideoInputThreadRun
        { src := fun (_ : Nat) => ([1, 2, 3, 4] : List Nat), openRet := fun _ => 3, writeRet := fun _ => -1 }
        0 1 [] (FFMpegProcess.initial false "/tmp/v" "" "/tmp/o")
        { fs := ["/tmp/v", "/tmp/o"], trace := [], errtext := "" }).locals.calls = 1 ∧
    (pulledChunks (fun (_ : Nat) => ([1, 2, 3, 4] : List Nat)) 1).flatten.length = 4 ∧
    handedChunks (VideoInputThreadRun
        { src := fun (_ : Nat) => ([1, 2, 3, 4] : List Nat), openRet := fun _ => 3, writeRet := fun _ => -1 }
        0 1 [] (FFMpegProcess.initial false "/tmp/v" "" "/tmp/o")
        { fs := ["/tmp/v", "/tmp/o"], trace := [], errtext := "" }).world.trace
      = [[1, 2, 3, 4]] ∧
    (pipeBytes (VideoInputThreadRun
        { src := fun (_ : Nat) => ([1, 2, 3, 4] : List Nat), openRet := fun _ => 3, writeRet := fun _ => -1 }
        0 1 [] (FFMpegProcess.initial false "/tmp/v" "" "/tmp/o")
        { fs := ["/tmp/v", "/tmp/o"], trace := [], errtext := "" }).world.trace).length = 0 := by
  refine ⟨fun _ => by simp [VIDEO_BUFFER_SIZE], ?_, ?_, ?_, ?_, ?_⟩ <;> decide

/-- C4: when `ReadOutput` reaches its `poll` on an open output pipe (the pipe was
open, or the `open` of this call succeeds): a `poll` result of 0 makes the call
return the count 0 without any `read` and without raising; a negative `poll`
result makes the call raise an `FFMpegWrapperException`, again without a
`read`; and `read` is called, once, exactly when the `poll` result is
positive. -/
theorem C4_ReadOutput_poll_outcomes (s : FFMpegProcess) (size : Nat) (timeout : Int)
    (openRet pollRet readRet : Int) (w : World)
    (hopen : 0 ≤ s.output_pipe_ ∨ 0 ≤ openRet) :
    (pollRet = 0 →
      (s.ReadOutput size timeout openRet pollRet readRet w).1 = .ok 0 ∧
      readCalls ((s.ReadOutput size timeout openRet pollRet readRet w).2.2.since w) = []) ∧
    (pollRet < 0 →
      (∃ e, (s.ReadOutput size timeout openRet pollRet readRet w).1 = .error e) ∧
      readCalls ((s.ReadOutput size timeout openRet pollRet readRet w).2.2.since w) = []) ∧
    (0 < pollRet →
      readCalls ((s.ReadOutput size timeout openRet pollRet readRet w).2.2.since w)
        = [readRet]) ∧
    (readCalls ((s.ReadOutput size timeout openRet pollRet readRet w).2.2.since w) ≠ []
      ↔ 0 < pollRet) := by
  obtain ⟨pre, fd, _, ht, hrd, _, hr⟩ :=
    ReadOutput_open s size timeout openRet pollRet readRet w hopen
  have hsince : readCalls ((s.ReadOutput size timeout openRet pollRet readRet w).2.2.since w)
      = (if 0 < pollRet then [readRet] else []) := by
    rw [since_append _ _ (pre ++ [Event.poll fd timeout pollRet] ++
      (if 0 < pollRet then [Event.read fd size readRet] else []))
      (by rw [ht]; simp only [List.append_assoc])]
    rw [readCalls_append, readCalls_append, hrd]
    split <;> simp [readCalls]
  rw [hsince, hr]
  refine ⟨?_, ?_, ?_, ?_⟩
  · intro h0
    simp [h0]
  · intro hneg
    have : ¬ (0 < pollRet) := by omega
    exact ⟨⟨.new ("Failed to to poll output pipe: " ++ w.errtext), by simp only [hneg, if_true]⟩,
      by simp [this]⟩
  · intro hpos
    simp [hpos]
  · by_cases hpos : 0 < pollRet <;> simp [hpos]

/-- Witness of C4: the output pipe is open as descriptor 5 and `poll` times out. -/
theorem C4_ReadOutput_poll_outcomes_witness :
    ((0 : Int) ≤ 5 ∨ (0 : Int) ≤ -1) ∧
    ({ FFMpegProcess.initial false "/tmp/v" "" "/tmp/o" with output_pipe_ := 5 }.ReadOutput
        OUTPUT_BUFFER_SIZE 100 (-1) 0 0 { fs := [], trace := [], errtext := "" }).1 = .ok 0 ∧
    readCalls (({ FFMpegProcess.initial false "/tmp/v" "" "/tmp/o" with
        output_pipe_ := 5 }.ReadOutput
        OUTPUT_BUFFER_SIZE 100 (-1) 0 0 { fs := [], trace := [], errtext := "" }).2.2.since
        { fs := [], trace := [], errtext := "" }) = [] :=
  ⟨by decide,
   (C4_ReadOutput_poll_outcomes
      { FFMpegProcess.initial false "/tmp/v" "" "/tmp/o" with output_pipe_ := 5 }
      OUTPUT_BUFFER_SIZE 100 (-1) 0 0 { fs := [], trace := [], errtext := "" }
      (by decide)).1 rfl⟩

/-- C5 (as amended): in the drain loop the sink is invoked exactly once for
every iteration in which `ReadOutput` returns, in order, with the returned
count converted to `int` (the same number whenever it fits an `int`); every
returned count is 0 or, after a positive `poll`, the converted result of that
iteration's `read`; a returned count of 0 is delivered as 0; a loop that
returns normally has run every iteration up to the observation of the stop
flag; a loop that ends otherwise ends in the iteration whose `poll` failed,
through the exception `ReadOutput` raises, without invoking the sink in that
iteration; so without a `poll` failure the loop ends only at the stop flag. -/
theorem C5_drain_loop_delivers_each_read (env : DrainEnv) (polls n : Nat)
    (s : FFMpegProcess) (w : World) :
    sinkCalls ((OutputThreadRun env polls n s w).world.since w)
      = (OutputThreadRun env polls n s w).returned.map toInt32 ∧
    (∀ k x : Nat, (OutputThreadRun env polls n s w).returned[k]? = some x →
      (x = 0 ∨ (0 < env.pollRet k ∧ x = toSizeT (env.readRet k))) ∧
      (x < 2 ^ 31 →
        (sinkCalls ((OutputThreadRun env polls n s w).world.since w))[k]? = some (x : Int))) ∧
    (∀ k : Nat, (OutputThreadRun env polls n s w).returned[k]? = some 0 →
      (sinkCalls ((OutputThreadRun env polls n s w).world.since w))[k]? = some 0) ∧
    ((OutputThreadRun env polls n s w).outcome = .ok () →
      (OutputThreadRun env polls n s w).returned.length = n) ∧
    (∀ e, (OutputThreadRun env polls n s w).outcome = .error e →
      (OutputThreadRun env polls n s w).returned.length < n ∧
      env.pollRet (OutputThreadRun env polls n s w).returned.length < 0) ∧
    ((∀ i, i < n → 0 ≤ env.pollRet i) →
      (OutputThreadRun env polls n s w).outcome = .ok () ∧
      (OutputThreadRun env polls n s w).returned.length = n) := by
  obtain ⟨l0, ht0, _, _, _, _, hs0, _⟩ := waitForStart_spec polls w
  obtain ⟨tr, ret, h1, h2, h3, h4, h5, h6⟩ :=
    drainLoop_spec env n 0 [] s (waitForStart polls w)
  have hsince : (OutputThreadRun env polls n s w).world.since w = l0 ++ tr :=
    since_append _ _ _ (by rw [OutputThreadRun, h1, ht0, List.append_assoc])
  have hret : (OutputThreadRun env polls n s w).returned = ret := by
    rw [OutputThreadRun, h2, List.nil_append]
  have hsink : sinkCalls ((OutputThreadRun env polls n s w).world.since w)
      = ret.map toInt32 := by
    rw [hsince, sinkCalls_append, hs0, List.nil_append, h3]
  have herr : ∀ e, (OutputThreadRun env polls n s w).outcome = .error e →
      ret.length < n ∧ env.pollRet ret.length < 0 := by
    intro e he
    have := h5 e he
    simpa using this
  rw [hsink, hret]
  refine ⟨rfl, ?_, ?_, h4, herr, ?_⟩
  · intro k x hk
    refine ⟨by simpa using h6 k x hk, ?_⟩
    intro hx
    rw [List.getElem?_map, hk, Option.map_some', toInt32_of_lt x hx]
  · intro k hk
    simp [hk, toInt32]
  · intro hpoll
    cases ho : (OutputThreadRun env polls n s w).outcome with
    | error e =>
      obtain ⟨hlt, hneg⟩ := herr e ho
      have := hpoll ret.length hlt
      omega
    | ok u =>
      cases u
      exact ⟨rfl, h4 ho⟩

/-- Counterexample to C5 as stated: the stop flag is unset, the output pipe
opens and `poll` fails with `-1`. The iteration is left through the exception:
the sink is not invoked in it, and the loop has ended although the stop flag
was never observed set. -/
theorem C5_counterexample_poll_failure :
    (OutputThreadRun
        { openRet := fun _ => 5, pollRet := fun _ => -1, readRet := fun _ => 0 } 0 1
        (FFMpegProcess.initial false "/tmp/v" "" "/tmp/o")
        { fs := ["/tmp/v", "/tmp/o"], trace := [], errtext := "EINTR" }).outcome
      = .error (FFMpegWrapperException.new "Failed to to poll output pipe: EINTR") ∧
    (OutputThreadRun
        { openRet := fun _ => 5, pollRet := fun _ => -1, readRet := fun _ => 0 } 0 1
        (FFMpegProcess.initial false "/tmp/v" "" "/tmp/o")
        { fs := ["/tmp/v", "/tmp/o"], trace := [], errtext := "EINTR" }).world.trace
      = [Event.openRead "/tmp/o" 5, Event.fcntlGetfl 5, Event.fcntlSetflBlocking 5,
         Event.poll 5 100 (-1)] ∧
    sinkCalls (OutputThreadRun
        { openRet := fun _ => 5, pollRet := fun _ => -1, readRet := fun _ => 0 } 0 1
        (FFMpegProcess.initial false "/tmp/v" "" "/tmp/o")
        { fs := ["/tmp/v", "/tmp/o"], trace := [], errtext := "EINTR" }).world.trace = [] := by
  refine ⟨rfl, ?_, ?_⟩ <;> decide

/-- C9 (the code at the failing input): with the output pipe open, a positive
`poll` result and a `read` that fails with `-1`, `ReadOutput` returns the
`size_t` value `2^64 - 1`, far above the buffer capacity 1024, and the drain
loop passes `-1` to the sink. -/
theorem C9_failed_read_count (s : FFMpegProcess) (fd ready : Nat) (openRet : Int)
    (polls : Nat) (w : World) :
    ({ s with output_pipe_ := (fd : Int) }.ReadOutput OUTPUT_BUFFER_SIZE 100 openRet
        ((ready : Int) + 1) (-1) w).1 = .ok 18446744073709551615 ∧
    (OutputThreadRun
        { openRet := fun _ => openRet, pollRet := fun _ => (ready : Int) + 1,
          readRet := fun _ => -1 }
        polls 1 { s with output_pipe_ := (fd : Int) } w).returned = [18446744073709551615] ∧
    sinkCalls ((OutputThreadRun
        { openRet := fun _ => openRet, pollRet := fun _ => (ready : Int) + 1,
          readRet := fun _ => -1 }
        polls 1 { s with output_pipe_ := (fd : Int) } w).world.since w) = [-1] := by
  have hne : ¬ ((fd : Int) < 0) := by omega
  have hp1 : ¬ ((ready : Int) + 1 < 0) := by omega
  have hp2 : ¬ ((ready : Int) + 1 = 0) := by omega
  have hsz : toSizeT (-1) = 18446744073709551615 := by decide
  have hint : toInt32 18446744073709551615 = -1 := by decide
  have hR : ∀ w1 : World,
      { s with output_pipe_ := (fd : Int) }.ReadOutput OUTPUT_BUFFER_SIZE 100 openRet
        ((ready : Int) + 1) (-1) w1
      = ((.ok 18446744073709551615), { s with output_pipe_ := (fd : Int) },
          (w1.emit (Event.poll (fd : Int) 100 ((ready : Int) + 1))).emit
            (Event.read (fd : Int) OUTPUT_BUFFER_SIZE (-1))) := by
    intro w1
    simp [FFMpegProcess.ReadOutput, hne, hp1, hp2, hsz]
  obtain ⟨l0, ht0, _, _, _, _, hs0, _⟩ := waitForStart_spec polls w
  refine ⟨by rw [hR], ?_, ?_⟩
  · rw [OutputThreadRun, drainLoop]
    simp only [hR, drainLoop, List.nil_append]
  · rw [OutputThreadRun, drainLoop]
    simp only [hR, drainLoop]
    rw [since_append _ _ (l0 ++ [Event.poll (fd : Int) 100 ((ready : Int) + 1),
      Event.read (fd : Int) OUTPUT_BUFFER_SIZE (-1), Event.sink (toInt32 18446744073709551615)])
      (by simp [World.emit, ht0])]
    rw [sinkCalls_append, hs0, hint]
    simp [sinkCalls]

/-- C6: whatever state the process object is in when it is destroyed (child
started or not, any pipe opened or not) and whatever files exist, after the
destructor none of the three pipe paths of the instance exists on disk; and
`remove` is called at most once per path and only on a path that exists, so a
file that is already gone is skipped without an error. -/
theorem C6_dtor_removes_every_pipe (s : FFMpegProcess) (w : World) :
    s.video_pipe_path_ ∉ (s.dtor w).fs ∧
    s.audio_pipe_path_ ∉ (s.dtor w).fs ∧
    s.output_pipe_path_ ∉ (s.dtor w).fs ∧
    (removedPaths ((s.dtor w).since w)).Nodup ∧
    (∀ p ∈ removedPaths ((s.dtor w).since w), p ∈ w.fs) := by
  refine ⟨RemovePipes_not_mem s _ _ (Or.inl rfl), RemovePipes_not_mem s _ _ (Or.inr (Or.inl rfl)),
    RemovePipes_not_mem s _ _ (Or.inr (Or.inr rfl)), ?_⟩
  obtain ⟨l4, l, ht, hr4, _, hnd, hmem, _⟩ := dtor_trace s w
  have e : removedPaths ((s.dtor w).since w) = removedPaths l := by
    rw [since_append _ _ _ ht]
    have : removedPaths (l4 ++ l) = removedPaths l4 ++ removedPaths l := by
      simp [removedPaths, List.filterMap_append]
    rw [this, hr4, List.nil_append]
  rw [e]
  exact ⟨hnd, hmem⟩

/-- C7: when at least one of the FIFO creations the constructor reaches fails,
the failing `mkfifo` is the last one called (all earlier ones succeeded), no
path a `mkfifo` was called on exists after the constructor, and the constructor
returns an object instead of raising. -/
theorem C7_ctor_failure_cleans_up (has_audio_input : Bool) (vpath apath opath : String)
    (rV rA rO : Int) (w : World)
    (hfail : rV ≠ 0 ∨ (has_audio_input = true ∧ apath ≠ "" ∧ rA ≠ 0) ∨ rO ≠ 0) :
    (∃ s, (FFMpegProcess.ctor has_audio_input vpath apath opath rV rA rO w).1 = .ok s) ∧
    (∃ pre p ret,
      mkfifoCalls ((FFMpegProcess.ctor has_audio_input vpath apath opath rV rA rO w).2.since w)
        = pre ++ [(p, ret)] ∧ ret ≠ 0 ∧ ∀ x ∈ pre, x.2 = 0) ∧
    (∀ x ∈ mkfifoCalls
        ((FFMpegProcess.ctor has_audio_input vpath apath opath rV rA rO w).2.since w),
      x.1 ∉ (FFMpegProcess.ctor has_audio_input vpath apath opath rV rA rO w).2.fs) := by
  obtain ⟨l, ht, hm, herr⟩ :=
    createPipes_spec (FFMpegProcess.initial has_audio_input vpath apath opath) rV rA rO w
  have hf : rV ≠ 0 ∨ ((FFMpegProcess.initial has_audio_input vpath apath opath).audio_pipe_path_
      ≠ "" ∧ rA ≠ 0) ∨ rO ≠ 0 := by
    rcases hfail with h | ⟨h1, h2, h3⟩ | h
    · exact Or.inl h
    · exact Or.inr (Or.inl ⟨by simp [FFMpegProcess.initial, h1, h2], h3⟩)
    · exact Or.inr (Or.inr h)
  obtain ⟨e, he⟩ := herr.mpr hf
  obtain ⟨l2, ht2, _, _, hm2, _⟩ :=
    RemovePipes_trace (FFMpegProcess.initial has_audio_input vpath apath opath)
      ((FFMpegProcess.initial has_audio_input vpath apath opath).createPipes rV rA rO w).2
  have hc : FFMpegProcess.ctor has_audio_input vpath apath opath rV rA rO w
      = (.ok (FFMpegProcess.initial has_audio_input vpath apath opath),
         (FFMpegProcess.initial has_audio_input vpath apath opath).RemovePipes
          ((FFMpegProcess.initial has_audio_input vpath apath opath).createPipes rV rA rO w).2) := by
    exact ctor_of_error has_audio_input vpath apath opath rV rA rO w e he
  have hs : mkfifoCalls
      ((FFMpegProcess.ctor has_audio_input vpath apath opath rV rA rO w).2.since w)
      = mkfifoCalls l := by
    rw [hc, since_append _ _ (l ++ l2) (by rw [ht2, ht, List.append_assoc])]
    have : mkfifoCalls (l ++ l2) = mkfifoCalls l ++ mkfifoCalls l2 := by
      simp [mkfifoCalls, List.filterMap_append]
    rw [this, hm2, List.append_nil]
  rw [hs, hm]
  refine ⟨⟨_, by rw [hc]⟩, ?_, ?_⟩
  · by_cases hV : rV = 0
    · by_cases hA : (FFMpegProcess.initial has_audio_input vpath apath opath).audio_pipe_path_ = ""
      · have hO : rO ≠ 0 := by
          rcases hf with h | h | h
          · exact absurd hV h
          · exact absurd hA h.1
          · exact h
        exact ⟨[((FFMpegProcess.initial has_audio_input vpath apath opath).video_pipe_path_, rV)],
          (FFMpegProcess.initial has_audio_input vpath apath opath).output_pipe_path_, rO,
          by simp [hV, hA], hO, by simp [hV]⟩
      · by_cases hrA : rA = 0
        · have hO : rO ≠ 0 := by
            rcases hf with h | h | h
            · exact absurd hV h
            · exact absurd hrA h.2
            · exact h
          exact ⟨[((FFMpegProcess.initial has_audio_input vpath apath opath).video_pipe_path_, rV),
              ((FFMpegProcess.initial has_audio_input vpath apath opath).audio_pipe_path_, rA)],
            (FFMpegProcess.initial has_audio_input vpath apath opath).output_pipe_path_, rO,
            by simp [hV, hA, hrA], hO, by simp [hV, hrA]⟩
        · exact ⟨[((FFMpegProcess.initial has_audio_input vpath apath opath).video_pipe_path_, rV)],
            (FFMpegProcess.initial has_audio_input vpath apath opath).audio_pipe_path_, rA,
            by simp [hV, hA, hrA], hrA, by simp [hV]⟩
    · exact ⟨[], (FFMpegProcess.initial has_audio_input vpath apath opath).video_pipe_path_, rV,
        by simp [hV], hV, by simp⟩
  · intro x hx
    rw [hc]
    apply RemovePipes_not_mem
    split_ifs at hx <;> simp at hx <;>
      first
      | (rcases hx with h | h | h <;> simp [h])
      | (rcases hx with h | h <;> simp [h])
      | simp [hx]

/-- Witness of C7: video pipe created, audio pipe creation fails. -/
theorem C7_ctor_failure_cleans_up_witness :
    ((0 : Int) ≠ 0 ∨ (true = true ∧ "/tmp/a" ≠ "" ∧ (-1 : Int) ≠ 0) ∨ (0 : Int) ≠ 0) ∧
    ((∃ s, (FFMpegProcess.ctor true "/tmp/v" "/tmp/a" "/tmp/o" 0 (-1) 0
        { fs := [], trace := [], errtext := "" }).1 = .ok s) ∧
    (∃ pre p ret,
      mkfifoCalls ((FFMpegProcess.ctor true "/tmp/v" "/tmp/a" "/tmp/o" 0 (-1) 0
        { fs := [], trace := [], errtext := "" }).2.since { fs := [], trace := [], errtext := "" })
        = pre ++ [(p, ret)] ∧ ret ≠ 0 ∧ ∀ x ∈ pre, x.2 = 0) ∧
    (∀ x ∈ mkfifoCalls
        ((FFMpegProcess.ctor true "/tmp/v" "/tmp/a" "/tmp/o" 0 (-1) 0
          { fs := [], trace := [], errtext := "" }).2.since
            { fs := [], trace := [], errtext := "" }),
      x.1 ∉ (FFMpegProcess.ctor true "/tmp/v" "/tmp/a" "/tmp/o" 0 (-1) 0
        { fs := [], trace := [], errtext := "" }).2.fs)) :=
  ⟨by decide,
   C7_ctor_failure_cleans_up true "/tmp/v" "/tmp/a" "/tmp/o" 0 (-1) 0
    { fs := [], trace := [], errtext := "" } (by decide)⟩

/-- C8: a wrapper built with a null audio source calls `mkfifo` for the video
path and (when that succeeded) for the output path and for nothing else, the
process object has an empty audio pipe path, no file other than those two
appears on disk, and the audio worker returns at once: it makes no call at all
(no source invocation, no open, no write) and leaves the process untouched. -/
theorem C8_null_audio_source (vpath apath opath : String) (rV rA rO : Int) (w : World)
    (openRet writeRet : Nat → Int) (polls n : Nat) (buf0 : List Nat)
    (s : FFMpegProcess) (w1 : World) :
    mkfifoCalls ((Impl.constructProcess none vpath apath opath rV rA rO w).2.since w)
      = (if rV = 0 then [(vpath, rV), (opath, rO)] else [(vpath, rV)]) ∧
    (∃ p, (Impl.constructProcess none vpath apath opath rV rA rO w).1 = .ok p ∧
      p.audio_pipe_path_ = "") ∧
    (∀ q ∈ (Impl.constructProcess none vpath apath opath rV rA rO w).2.fs,
      q ∈ w.fs ∨ q = vpath ∨ q = opath) ∧
    (AudioInputThreadRun none openRet writeRet polls n buf0 s w1).world.trace = w1.trace ∧
    (AudioInputThreadRun none openRet writeRet polls n buf0 s w1).world.fs = w1.fs ∧
    (AudioInputThreadRun none openRet writeRet polls n buf0 s w1).process = s ∧
    (AudioInputThreadRun none openRet writeRet polls n buf0 s w1).outcome = .ok () := by
  have hmk := ctor_mkfifoCalls false vpath apath opath rV rA rO w
  have hA : (FFMpegProcess.initial false vpath apath opath).audio_pipe_path_ = "" := rfl
  have hv : (FFMpegProcess.initial false vpath apath opath).video_pipe_path_ = vpath := rfl
  have ho : (FFMpegProcess.initial false vpath apath opath).output_pipe_path_ = opath := rfl
  rw [hA, hv, ho] at hmk
  refine ⟨?_, ?_, ?_, rfl, rfl, rfl, rfl⟩
  · simp only [Impl.constructProcess, Option.isSome_none]
    rw [hmk]
    by_cases hV : rV = 0 <;> simp [hV]
  · exact ⟨_, ctor_fst false vpath apath opath rV rA rO w, rfl⟩
  · intro q hq
    have := ctor_fs false vpath apath opath rV rA rO w q hq
    rw [hA, hv, ho] at this
    tauto

/-- C2: for a process object made by the constructor, with a non-empty audio
pipe path when audio is enabled, the child that `Start` forks calls `execvp`
with exactly `ffmpeg -y`, the video arguments, `-i` and the video pipe path,
then (only when audio is enabled) the audio arguments, `-i` and the audio pipe
path, then the output arguments and the output pipe path. -/
theorem C2_child_argv (has_audio_input : Bool) (vpath apath opath : String)
    (rV rA rO : Int) (w0 : World) (p : FFMpegProcess)
    (video_args audio_args output_args : List String) (w : World)
    (hA : apath ≠ "")
    (hp : (FFMpegProcess.ctor has_audio_input vpath apath opath rV rA rO w0).1 = .ok p) :
    (p.Start video_args audio_args output_args 0 w).2.since w =
      [Event.fork 0,
       Event.execvp "ffmpeg"
        (["ffmpeg", "-y"] ++ video_args ++ ["-i", vpath] ++
          (if has_audio_input then audio_args ++ ["-i", apath] else []) ++
          output_args ++ [opath])] := by
  rw [ctor_fst] at hp
  cases hp
  apply since_append
  cases has_audio_input <;>
    simp [FFMpegProcess.Start, FFMpegProcess.childArgs, FFMpegProcess.initial, World.emit, hA]

/-- Witness of C2: the argument lists of the demonstration program. -/
theorem C2_child_argv_witness :
    "/tmp/a1" ≠ "" ∧
    (FFMpegProcess.ctor true "/tmp/v1" "/tmp/a1" "/tmp/o1" 0 0 0
      { fs := [], trace := [], errtext := "" }).1
      = .ok (FFMpegProcess.initial true "/tmp/v1" "/tmp/a1" "/tmp/o1") ∧
    ((FFMpegProcess.initial true "/tmp/v1" "/tmp/a1" "/tmp/o1").Start
        ["-f", "h264", "-r", "25", "-probesize", "1024"] ["-f", "flac"]
        ["-vcodec", "copy", "-f", "mp4"] 0
        { fs := ["/tmp/v1", "/tmp/a1", "/tmp/o1"], trace := [], errtext := "" }).2.since
        { fs := ["/tmp/v1", "/tmp/a1", "/tmp/o1"], trace := [], errtext := "" } =
      [Event.fork 0,
       Event.execvp "ffmpeg"
        (["ffmpeg", "-y"] ++ ["-f", "h264", "-r", "25", "-probesize", "1024"] ++
          ["-i", "/tmp/v1"] ++
          (if true then ["-f", "flac"] ++ ["-i", "/tmp/a1"] else []) ++
          ["-vcodec", "copy", "-f", "mp4"] ++ ["/tmp/o1"])] :=
  ⟨by decide, rfl,
   C2_child_argv true "/tmp/v1" "/tmp/a1" "/tmp/o1" 0 0 0
    { fs := [], trace := [], errtext := "" }
    (FFMpegProcess.initial true "/tmp/v1" "/tmp/a1" "/tmp/o1")
    ["-f", "h264", "-r", "25", "-probesize", "1024"] ["-f", "flac"]
    ["-vcodec", "copy", "-f", "mp4"]
    { fs := ["/tmp/v1", "/tmp/a1", "/tmp/o1"], trace := [], errtext := "" }
    (by decide) rfl⟩

/-- C3 (the code at the failing input): on an open pipe (`fd ≥ 0`) and for
every negative result `-(k+1)` of `write`, both `WriteVideo` and `WriteAudio`
return `true` normally; no exception is raised. -/
theorem C3_failed_write_returns_true (s : FFMpegProcess) (fd k : Nat) (buffer : List Nat)
    (write_size : Nat) (openRet : Int) (w : World) :
    ({ s with video_pipe_ := (fd : Int) }.WriteVideo buffer write_size openRet
        (Int.negSucc k) w).1 = .ok true ∧
    ({ s with audio_pipe_ := (fd : Int) }.WriteAudio buffer write_size openRet
        (Int.negSucc k) w).1 = .ok true := by
  have h : ¬ ((fd : Int) < 0) := by omega
  constructor <;>
    simp [FFMpegProcess.WriteVideo, FFMpegProcess.WriteAudio, FFMpegProcess.WritePipe,
      FFMpegProcess.pipeFd, h]

/-- C10 (the code at the failing input): when `fork` fails with `-1` in
`Start`, the destructor calls `kill` once, with pid `-1`. -/
theorem C10_failed_fork_kill_minus_one (s : FFMpegProcess)
    (video_args audio_args output_args : List String) (w w1 : World) :
    killedPids (((s.Start video_args audio_args output_args (-1) w).1.dtor w1).since w1)
      = [-1] := by
  obtain ⟨l4, l, ht, _, hk4, _, _, hk⟩ :=
    dtor_trace (s.Start video_args audio_args output_args (-1) w).1 w1
  rw [since_append _ _ _ ht]
  have : killedPids (l4 ++ l) = killedPids l4 ++ killedPids l := by
    simp [killedPids, List.filterMap_append]
  rw [this, hk4, hk]
  simp [FFMpegProcess.Start]

end FFMpegRemuxer
